import Mathlib

/-!
# Coaster server (`main.go`): an embedding of the handlers and their properties

The HTTP handlers of `main.go` are embedded as functions on an explicit
per-request context.  The shared state is the `coasterHandlers` struct (its
embedded mutex and its map); what the Go runtime and the standard library
decide (the random numbers, the iteration order of a map, the JSON codec, the
outcome of reading the body, the parsed Basic credentials) is an explicit
input of the handler.

Every access to the map and every piece of work a handler does outside the map
is recorded, together with the state of the mutex at that moment, so that the
locking discipline of a handler can be read off its result.
-/

namespace Coasters

/-! ## Data model -/

/-- The struct `Coaster` (main.go, lines 16-21): four text fields. -/
structure Coaster where
  Name : String
  Id : String
  Manufacturer : String
  InPark : String
deriving DecidableEq, Repr

/-- The zero value of `Coaster`, as `make([]Coaster, n)` fills a slice with. -/
def Coaster.zero : Coaster := ⟨"", "", "", ""⟩

/-- The type `map[string]Coaster`: a finite mapping with pairwise different keys. -/
abbrev Store := AList (fun _ : String => Coaster)

/-- The struct `coasterHandlers` (lines 24-27): the embedded `sync.Mutex`
(`mu` is true while the mutex is held) and the map. -/
structure coasterHandlers where
  mu : Bool
  store : Store

/-- The constructor `newCoasterHandlers` (lines 169-173): an empty map, a free mutex. -/
def newCoasterHandlers : coasterHandlers := { mu := false, store := ∅ }

/-- The struct `adminPortal` (lines 175-177). -/
structure adminPortal where
  password : String
deriving DecidableEq, Repr

/-- The constructor `newAdminPortal` (lines 179-186), given the value of the
environment variable `ADMIN_PASSWORD`; `none` stands for the start-up panic. -/
def newAdminPortal (getenv : String) : Option adminPortal :=
  if getenv = "" then none else some { password := getenv }

/-- What a handler reads of a `*http.Request`. -/
structure Request where
  /-- The field `r.Method`. -/
  Method : String
  /-- The text `r.URL.String()`. -/
  URL : String
  /-- The value `r.Header.Get("content-type")`, empty when the header is absent. -/
  contentType : String
  /-- The result of `ioutil.ReadAll(r.Body)`: the bytes read, or the error text. -/
  Body : Except String String
  /-- The credentials `r.BasicAuth()` finds, `none` when it reports `ok = false`. -/
  basicAuth : Option (String × String)

/-- The call `r.BasicAuth()`: user, password and the `ok` flag. -/
def Request.BasicAuth (r : Request) : String × String × Bool :=
  match r.basicAuth with
  | some (user, pass) => (user, pass, true)
  | none => ("", "", false)

/-- The package `encoding/json`, as far as the handlers call it. -/
structure Json where
  /-- The call `json.Unmarshal(bodyBytes, &coaster)` on a zero `Coaster`. -/
  unmarshal : String → Except String Coaster
  /-- The call `json.Marshal(coaster)`. -/
  marshal : Coaster → Except String String
  /-- The call `json.Marshal(coasters)` on a slice. -/
  marshalSlice : List Coaster → Except String String

/-- What the runtime decides during one request: the value the random source
yields (`rand.Intn n` is `rand % n`) and the order in which a `range` over the
map visits its entries. -/
structure Env where
  rand : Nat
  order : List Nat

/-! ## The response writer -/

/-- The state of an `http.ResponseWriter`: the header map being built, the
status and header that were sent (none before the first `WriteHeader`), and
the body written so far. -/
structure ResponseWriter where
  header : List (String × String)
  status : Option Nat
  sent : List (String × String)
  body : String
deriving DecidableEq, Repr

/-- A writer nothing was written to. -/
def ResponseWriter.new : ResponseWriter :=
  { header := [], status := none, sent := [], body := "" }

/-- The call `w.Header().Add(key, value)`. -/
def ResponseWriter.HeaderAdd (key value : String) (w : ResponseWriter) : ResponseWriter :=
  { w with header := w.header ++ [(key, value)] }

/-- The call `w.WriteHeader(code)`: sends the status and the header built so
far; a second call has no effect. -/
def ResponseWriter.WriteHeader (code : Nat) (w : ResponseWriter) : ResponseWriter :=
  match w.status with
  | some _ => w
  | none => { w with status := some code, sent := w.header }

/-- The call `w.Write(bytes)`: sends status 200 first when no status was sent. -/
def ResponseWriter.Write (bytes : String) (w : ResponseWriter) : ResponseWriter :=
  let w := w.WriteHeader 200
  { w with body := w.body ++ bytes }

def StatusOK : Nat := 200
def StatusFound : Nat := 302
def StatusBadRequest : Nat := 400
def StatusUnauthorized : Nat := 401
def StatusNotFound : Nat := 404
def StatusMethodNotAllowed : Nat := 405
def StatusUnsupportedMediaType : Nat := 415
def StatusInternalServerError : Nat := 500

/-! ## The context of one handler invocation -/

/-- What a handler does that the locking discipline speaks about. -/
inductive Ev where
  | lock | unlock
  | storeLen | storeRange | storeIndex | storeAssign
  | marshal | random | respond
deriving DecidableEq, Repr

/-- An event that reads or writes the map. -/
def Ev.isStoreAccess : Ev → Bool
  | .storeLen | .storeRange | .storeIndex | .storeAssign => true
  | _ => false

/-- An event that is serialization, random-number selection or writing the response. -/
def Ev.isOutsideWork : Ev → Bool
  | .marshal | .random | .respond => true
  | _ => false

/-- The context of one handler invocation: the shared `coasterHandlers`, the
response writer of this request, and the record of what the handler did, each
event with the state of the mutex when it happened. -/
structure Ctx where
  h : coasterHandlers
  w : ResponseWriter
  tr : List (Ev × Bool)

/-- The context a handler starts in. -/
def Ctx.start (h : coasterHandlers) : Ctx := { h := h, w := ResponseWriter.new, tr := [] }

/-- Records an event with the current state of the mutex. -/
def Ctx.log (e : Ev) (c : Ctx) : Ctx := { c with tr := c.tr ++ [(e, c.h.mu)] }

/-- The call `h.Lock()`: `none` when the mutex is held (the caller blocks). -/
def Ctx.Lock (c : Ctx) : Option Ctx :=
  if c.h.mu then none else some { (c.log .lock) with h := { c.h with mu := true } }

/-- The call `h.Unlock()`. -/
def Ctx.Unlock (c : Ctx) : Ctx := { (c.log .unlock) with h := { c.h with mu := false } }

/-- The assignment `h.store[key] = value`. -/
def Ctx.assign (key : String) (value : Coaster) (c : Ctx) : Ctx :=
  { (c.log .storeAssign) with h := { c.h with store := c.h.store.insert key value } }

def Ctx.HeaderAdd (key value : String) (c : Ctx) : Ctx :=
  { (c.log .respond) with w := c.w.HeaderAdd key value }

def Ctx.WriteHeader (code : Nat) (c : Ctx) : Ctx :=
  { (c.log .respond) with w := c.w.WriteHeader code }

def Ctx.Write (bytes : String) (c : Ctx) : Ctx :=
  { (c.log .respond) with w := c.w.Write bytes }

/-- How a handler invocation ends: it returns, it panics, or it blocks on the mutex. -/
inductive Result where
  | ok (c : Ctx)
  | panic (c : Ctx)
  | blocked (c : Ctx)

/-! ## Library functions used by the handlers -/

/-- The builtin `len` on the map. -/
def len (s : Store) : Nat := s.entries.length

/-- Inserts `x` at position `n` of a list (at the end when the list is shorter). -/
def insertAt {α : Type} (x : α) : Nat → List α → List α
  | 0, l => x :: l
  | _ + 1, [] => [x]
  | n + 1, y :: ys => y :: insertAt x n ys

/-- The order in which a `range` visits a list of entries: any order, decided by `order`. -/
def visit {α : Type} : List Nat → List α → List α
  | _, [] => []
  | [], l => l
  | k :: ks, x :: xs => insertAt x (k % (xs.length + 1)) (visit ks xs)

/-- The entries of the map in the order a `range` visits them. -/
def rangeStore (env : Env) (s : Store) : List (String × Coaster) :=
  visit env.order (s.entries.map fun e => (e.1, e.2))

/-- The loop body `slice[i] = x; i++` run for each `x` of `items`, starting at
index `i`; `none` is the panic of an index out of range. -/
def rangeAssign {α : Type} (slice : List α) (i : Nat) : List α → Option (List α)
  | [] => some slice
  | x :: xs => if i < slice.length then rangeAssign (slice.set i x) (i + 1) xs else none

/-- The function `strings.Split(s, sep)` for a one-character separator, on characters. -/
def splitChars (sep : Char) : List Char → List (List Char)
  | [] => [[]]
  | c :: cs =>
    if c = sep then [] :: splitChars sep cs
    else match splitChars sep cs with
      | [] => [[c]]
      | seg :: segs => (c :: seg) :: segs

/-- The call `strings.Split(s, "/")`. -/
def Split (s : String) : List String := (splitChars '/' s.data).map String.mk

/-- The function `strconv.Itoa` on a non-negative integer. -/
def Itoa (n : Nat) : String := Nat.repr n

/-! ## The handlers -/

/-- The rest of `get` (lines 50-67) once the slice `coasters` of length `n`
is allocated. -/
def getLocked (J : Json) (env : Env) (n : Nat) (c : Ctx) : Result :=
  let coasters := List.replicate n Coaster.zero
  match c.Lock with
  | none => .blocked c
  | some c =>
    let c := c.log .storeRange
    match rangeAssign coasters 0 ((rangeStore env c.h.store).map fun kv => kv.2) with
    | none => .panic c
    | some coasters =>
      let c := c.Unlock
      let c := c.log .marshal
      match J.marshalSlice coasters with
      | .error err => .ok ((c.WriteHeader StatusInternalServerError).Write err)
      | .ok jsonBytes =>
        .ok (((c.HeaderAdd "content-type" "application/json").WriteHeader StatusOK).Write jsonBytes)

/-- The method `coasterHandlers.get` (lines 47-68): line 48 reads `len(h.store)`
to allocate the slice, then the rest runs. -/
def get (J : Json) (env : Env) (c : Ctx) : Result :=
  let n := len c.h.store
  let c := c.log .storeLen
  getLocked J env n c

/-- The method `coasterHandlers.post` (lines 70-103).  The deferred
`h.Unlock()` of line 99 runs when the function returns, after the response is
written. -/
def post (J : Json) (env : Env) (r : Request) (c : Ctx) : Result :=
  match r.Body with
  | .error err => .ok ((c.WriteHeader StatusInternalServerError).Write err)
  | .ok bodyBytes =>
    match J.unmarshal bodyBytes with
    | .error err => .ok ((c.WriteHeader StatusBadRequest).Write err)
    | .ok coaster =>
      let ct := r.contentType
      if ct ≠ "application/json" then
        .ok ((c.WriteHeader StatusUnsupportedMediaType).Write
          ("need content type \x27application/json\x27 but got \x27" ++ ct ++ "\x27"))
      else
        let c := c.log .random
        let coaster := { coaster with Id := Itoa (env.rand % 10000) }
        match c.Lock with
        | none => .blocked c
        | some c =>
          let c := c.assign coaster.Id coaster
          let c := (c.WriteHeader StatusOK).Write "successfully created the coaster"
          .ok c.Unlock

/-- The method `coasterHandlers.coasters` (lines 29-45); the `fmt.Println` of
line 30 writes to the standard output only. -/
def coasters (J : Json) (env : Env) (r : Request) (c : Ctx) : Result :=
  if r.Method = "GET" then get J env c
  else if r.Method = "POST" then post J env r c
  else .ok ((c.WriteHeader StatusMethodNotAllowed).Write "Method not allowed")

/-- The rest of `randomHandler` (lines 109-131) once the slice `ids` of length
`n` is allocated.  The deferred `h.Unlock()` of line 115 is registered after
the loop and runs when the function returns. -/
def randomLocked (env : Env) (n : Nat) (c : Ctx) : Result :=
  let ids := List.replicate n ""
  match c.Lock with
  | none => .blocked c
  | some c =>
    let c := c.log .storeRange
    match rangeAssign ids 0 ((rangeStore env c.h.store).map fun kv => kv.1) with
    | none => .panic c
    | some ids =>
      if ids.length = 0 then
        let c := (c.WriteHeader StatusNotFound).Write "no coaster in the database"
        .ok c.Unlock
      else
        let c := if ids.length = 1 then c else c.log .random
        let target :=
          if ids.length = 1 then ids.getD 0 "" else ids.getD (env.rand % ids.length) ""
        let c := (c.HeaderAdd "location" ("/coasters/" ++ target)).WriteHeader StatusFound
        .ok c.Unlock

/-- The method `coasterHandlers.randomHandler` (lines 106-132): line 107 reads
`len(h.store)` to allocate the slice, then the rest runs. -/
def randomHandler (env : Env) (c : Ctx) : Result :=
  let n := len c.h.store
  let c := c.log .storeLen
  randomLocked env n c

/-- The method `coasterHandlers.getCoaster` (lines 134-167). -/
def getCoaster (J : Json) (env : Env) (r : Request) (c : Ctx) : Result :=
  let path := Split r.URL
  if path.length ≠ 3 then
    .ok ((c.WriteHeader StatusNotFound).Write "data with the specific id not exists")
  else if path.getD 2 "" = "random" then
    randomHandler env c
  else
    match c.Lock with
    | none => .blocked c
    | some c =>
      let found := c.h.store.lookup (path.getD 2 "")
      let c := c.log .storeIndex
      let c := c.Unlock
      match found with
      | none => .ok ((c.WriteHeader StatusNotFound).Write "data with the specific id not exists")
      | some coaster =>
        let c := c.log .marshal
        match J.marshal coaster with
        | .error err => .ok ((c.WriteHeader StatusUnsupportedMediaType).Write err)
        | .ok jsonBytes =>
          .ok (((c.HeaderAdd "content-type" "application/json").WriteHeader StatusOK).Write jsonBytes)

/-- The method `adminPortal.handler` (lines 188-198). -/
def adminPortal.handler (a : adminPortal) (r : Request) (w : ResponseWriter) : ResponseWriter :=
  match r.BasicAuth with
  | (user, pass, ok) =>
    if !ok || user != "admin" || pass != a.password then
      (w.WriteHeader StatusUnauthorized).Write "401 - unAuthorized"
    else
      (w.WriteHeader StatusOK).Write "Congrats! you are successfully logged in."

/-! ## Serving requests one after the other -/

/-- A request together with the handler `main` registered for its path
(lines 204-206). -/
inductive Call where
  | coasters (r : Request)
  | getCoaster (r : Request)
  | admin (r : Request)

/-- One request served on the shared state `h`. -/
def serve (J : Json) (a : adminPortal) (h : coasterHandlers) (env : Env) : Call → Result
  | .coasters r => coasters J env r (Ctx.start h)
  | .getCoaster r => getCoaster J env r (Ctx.start h)
  | .admin r => .ok { h := h, w := a.handler r ResponseWriter.new, tr := [] }

/-- A sequence of requests served one after the other; the result is the final
shared state and the responses, `none` when a handler panicked or blocked. -/
def run (J : Json) (a : adminPortal) :
    coasterHandlers → List (Env × Call) → Option (coasterHandlers × List ResponseWriter)
  | h, [] => some (h, [])
  | h, (env, call) :: rest =>
    match serve J a h env call with
    | .ok c =>
      match run J a c.h rest with
      | some (h', ws) => some (h', c.w :: ws)
      | none => none
    | _ => none

/-! ## A codec for the examples -/

/-- The body of the scenario of the specification. -/
def furyBody : String :=
  "\x7b\"name\":\"Fury\",\"manufacturer\":\"B&M\",\"inpark\":\"Carowinds\"\x7d"

/-- A second body, with an id supplied by the client. -/
def kingdaBody : String :=
  "\x7b\"name\":\"Kingda Ka\",\"id\":\"mine\",\"manufacturer\":\"Intamin\",\"inpark\":\"Six Flags\"\x7d"

/-- The encoding of one coaster as a JSON object, for texts that need no escaping. -/
def sampleMarshal (c : Coaster) : String :=
  "\x7b\"name\":\"" ++ c.Name ++ "\",\"id\":\"" ++ c.Id ++ "\",\"manufacturer\":\""
    ++ c.Manufacturer ++ "\",\"inpark\":\"" ++ c.InPark ++ "\"\x7d"

/-- A stand-in for `encoding/json` used in the examples: it decodes the two
bodies above as `encoding/json` does and rejects every other body, and it
encodes without escaping. -/
def sampleJson : Json where
  unmarshal := fun b =>
    if b = furyBody then .ok ⟨"Fury", "", "B&M", "Carowinds"⟩
    else if b = kingdaBody then .ok ⟨"Kingda Ka", "mine", "Intamin", "Six Flags"⟩
    else .error "invalid character"
  marshal := fun c => .ok (sampleMarshal c)
  marshalSlice := fun cs => .ok ("[" ++ ",".intercalate (cs.map sampleMarshal) ++ "]")

/-! ## Notions used in the statements -/

/-- The record of what a handler invocation did, however it ended. -/
def Result.tr : Result → List (Ev × Bool)
  | .ok c => c.tr
  | .panic c => c.tr
  | .blocked c => c.tr

/-- The status of the response of a handler invocation that returned. -/
def Result.status : Result → Option Nat
  | .ok c => c.w.status
  | _ => none

/-- The responses to a sequence of requests served from `h`. -/
def responses (J : Json) (a : adminPortal) (h : coasterHandlers) (cs : List (Env × Call)) :
    List ResponseWriter :=
  match run J a h cs with
  | some (_, ws) => ws
  | none => []

/-- The requests of the examples. -/
def furyPost : Request :=
  { Method := "POST", URL := "/coasters", contentType := "application/json",
    Body := .ok furyBody, basicAuth := none }

def kingdaPost : Request :=
  { Method := "POST", URL := "/coasters", contentType := "application/json",
    Body := .ok kingdaBody, basicAuth := none }

def getRequest (url : String) : Request :=
  { Method := "GET", URL := url, contentType := "", Body := .ok "", basicAuth := none }

/-- The library fact that `json.Marshal` returns bytes for a `Coaster` and
for a slice of them: every field is a string. -/
def Json.MarshalTotal (J : Json) : Prop :=
  (∀ c, ∃ b, J.marshal c = .ok b) ∧ (∀ cs, ∃ b, J.marshalSlice cs = .ok b)

/-- The entity a create request puts in the map: the decoded body with the
generated id; `none` when the request is answered with an error. -/
def created (J : Json) (env : Env) (r : Request) : Option Coaster :=
  match r.Body with
  | .error _ => none
  | .ok bodyBytes =>
    match J.unmarshal bodyBytes with
    | .error _ => none
    | .ok e =>
      if r.contentType = "application/json" then
        some ⟨e.Name, Itoa (env.rand % 10000), e.Manufacturer, e.InPark⟩
      else none

/-- The entity a call puts in the map, if any. -/
def effect (J : Json) (env : Env) : Call → Option Coaster
  | .coasters r => if r.Method = "POST" then created J env r else none
  | _ => none

/-- The map after a call, computed from the call alone. -/
def nextStore (J : Json) (s : Store) (ec : Env × Call) : Store :=
  match effect J ec.1 ec.2 with
  | some e => s.insert e.Id e
  | none => s

/-- The ids generated by the calls of a sequence that are POSTs on the
collection endpoint answered with status 200, given the responses. -/
def successfulIds : List (Env × Call) → List ResponseWriter → List String
  | (env, .coasters r) :: cs, w :: ws =>
    if r.Method = "POST" ∧ w.status = some 200 then
      Itoa (env.rand % 10000) :: successfulIds cs ws
    else successfulIds cs ws
  | _ :: cs, _ :: ws => successfulIds cs ws
  | _, _ => []

/-- The discipline on map accesses: every read or write of the map, the
read of its size included, happens while the mutex is held. -/
def accessesUnderLock (tr : List (Ev × Bool)) : Bool :=
  tr.all fun p => !p.1.isStoreAccess || p.2

/-- The discipline on other work: serialization, random-number selection and
writing the response happen while the mutex is free. -/
def lockFreeOutside (tr : List (Ev × Bool)) : Bool :=
  tr.all fun p => !p.1.isOutsideWork || !p.2

/-- A `get` on the shared state `h` that is overtaken: after its line 48 has
read `len(h.store)`, the handler invocation `other` of another goroutine runs
to completion, and only then `get` goes on with line 50. -/
def getOvertaken (J : Json) (env : Env) (h : coasterHandlers) (other : Ctx → Result) : Result :=
  let n := len h.store
  let c := (Ctx.start h).log .storeLen
  match other (Ctx.start h) with
  | .ok c2 => getLocked J env n { c with h := c2.h }
  | r => r

/-! ## Properties of the library functions -/

theorem digitChar_isDigit (m : Nat) (hm : m < 10) : (Nat.digitChar m).isDigit = true := by
  interval_cases m <;> decide

theorem toDigitsCore_isDigit (fuel : Nat) :
    ∀ (n : Nat) (ds : List Char), (∀ c ∈ ds, c.isDigit = true) →
      ∀ c ∈ Nat.toDigitsCore 10 fuel n ds, c.isDigit = true := by
  induction fuel with
  | zero => intro n ds hds c hc; exact hds c (by simpa [Nat.toDigitsCore] using hc)
  | succ fuel ih =>
    intro n ds hds c hc
    have hd : ∀ c ∈ Nat.digitChar (n % 10) :: ds, c.isDigit = true := by
      intro c hc
      rcases List.mem_cons.1 hc with rfl | hc
      · exact digitChar_isDigit _ (Nat.mod_lt _ (by decide))
      · exact hds c hc
    unfold Nat.toDigitsCore at hc
    by_cases h0 : n / 10 = 0
    · simp only [h0, ↓reduceIte] at hc
      exact hd c hc
    · simp only [h0, ↓reduceIte] at hc
      exact ih _ _ hd c hc

theorem toDigitsCore_ne_nil (fuel : Nat) :
    ∀ (n : Nat) (ds : List Char), ds ≠ [] → Nat.toDigitsCore 10 fuel n ds ≠ [] := by
  induction fuel with
  | zero => intro n ds hds; simpa [Nat.toDigitsCore] using hds
  | succ fuel ih =>
    intro n ds _
    unfold Nat.toDigitsCore
    by_cases h0 : n / 10 = 0
    · simp [h0]
    · simp only [h0, ↓reduceIte]
      exact ih _ _ (by simp)

/-- The decimal text of a number consists of digits. -/
theorem Itoa_isDigit (n : Nat) : ∀ c ∈ (Itoa n).data, c.isDigit = true := by
  intro c hc
  exact toDigitsCore_isDigit _ _ [] (by simp) c hc

/-- The decimal text of a number is not empty. -/
theorem Itoa_ne_empty (n : Nat) : Itoa n ≠ "" := by
  intro h
  have hd : (Itoa n).data = [] := by rw [h]
  have hne : Nat.toDigitsCore 10 (n + 1) n [] ≠ [] := by
    unfold Nat.toDigitsCore
    by_cases h0 : n / 10 = 0
    · simp [h0]
    · simp only [h0, ↓reduceIte]
      exact toDigitsCore_ne_nil _ _ _ (by simp)
  exact hne hd

/-- The decimal text of a number contains no slash. -/
theorem Itoa_no_slash (n : Nat) : '/' ∉ (Itoa n).data := by
  intro h
  have := Itoa_isDigit n _ h
  exact absurd this (by decide)

/-- The decimal text of a number is not the word `random`. -/
theorem Itoa_ne_random (n : Nat) : Itoa n ≠ "random" := by
  intro h
  have hr : 'r' ∈ (Itoa n).data := by rw [h]; decide
  exact absurd (Itoa_isDigit n _ hr) (by decide)

theorem splitChars_ne_nil (sep : Char) (l : List Char) : splitChars sep l ≠ [] := by
  cases l with
  | nil => simp [splitChars]
  | cons c cs =>
    unfold splitChars
    by_cases h : c = sep
    · simp [h]
    · simp only [h, ↓reduceIte]
      split <;> simp

theorem splitChars_of_not_mem (sep : Char) (l : List Char) (h : sep ∉ l) :
    splitChars sep l = [l] := by
  induction l with
  | nil => rfl
  | cons c cs ih =>
    have hc : ¬ c = sep := fun e => h (by simp [e])
    have hcs : sep ∉ cs := fun e => h (List.mem_cons_of_mem _ e)
    simp [splitChars, hc, ih hcs]

theorem splitChars_length (sep : Char) (l : List Char) :
    (splitChars sep l).length = l.count sep + 1 := by
  induction l with
  | nil => rfl
  | cons c cs ih =>
    unfold splitChars
    by_cases h : c = sep
    · subst h
      simp [ih]
    · have hne : (c == sep) = false := by simpa using h
      simp only [h, ↓reduceIte, List.count_cons, hne]
      cases hs : splitChars sep cs with
      | nil => exact absurd hs (splitChars_ne_nil _ _)
      | cons seg segs => simpa [hs] using ih

theorem splitChars_append_sep (sep : Char) (pre rest : List Char) (h : sep ∉ pre) :
    splitChars sep (pre ++ sep :: rest) = pre :: splitChars sep rest := by
  induction pre with
  | nil => simp [splitChars]
  | cons c cs ih =>
    have hc : ¬ c = sep := fun e => h (by simp [e])
    have hcs : sep ∉ cs := fun e => h (List.mem_cons_of_mem _ e)
    simp [splitChars, hc, ih hcs]

/-- The path of an item request splits into an empty segment, `coasters`, and
the segments of what follows the second slash. -/
theorem Split_coasters (x : String) :
    Split ("/coasters/" ++ x) = "" :: "coasters" :: (splitChars '/' x.data).map String.mk := by
  have h1 : ("/coasters/" ++ x).data = [] ++ '/' :: ("coasters".data ++ '/' :: x.data) := by
    simp [String.data_append]
  unfold Split
  rw [h1, splitChars_append_sep _ _ _ (by simp), splitChars_append_sep _ _ _ (by decide)]
  rfl

/-- When the path of an item request has three segments, the third is the
whole text after the second slash. -/
theorem Split_coasters_three (x : String) (h : (Split ("/coasters/" ++ x)).length = 3) :
    Split ("/coasters/" ++ x) = ["", "coasters", x] := by
  rw [Split_coasters] at h ⊢
  have hl : (splitChars '/' x.data).length = 1 := by simpa using h
  have hc : x.data.count '/' = 0 := by
    have := splitChars_length '/' x.data
    omega
  have hn : '/' ∉ x.data := List.count_eq_zero.1 hc
  rw [splitChars_of_not_mem _ _ hn]
  rfl

theorem Split_coasters_of_no_slash (x : String) (h : '/' ∉ x.data) :
    Split ("/coasters/" ++ x) = ["", "coasters", x] := by
  rw [Split_coasters, splitChars_of_not_mem _ _ h]
  rfl

theorem insertAt_perm {α : Type} (x : α) : ∀ (n : Nat) (l : List α), (insertAt x n l).Perm (x :: l)
  | 0, l => by simp [insertAt]
  | _ + 1, [] => by simp [insertAt]
  | n + 1, y :: ys => by
    simp only [insertAt]
    exact ((insertAt_perm x n ys).cons y).trans (List.Perm.swap x y ys)

/-- A `range` visits every entry exactly once. -/
theorem visit_perm {α : Type} : ∀ (ks : List Nat) (l : List α), (visit ks l).Perm l
  | _, [] => by simp [visit]
  | [], _ :: _ => by simp [visit]
  | k :: ks, x :: xs => by
    simp only [visit]
    exact (insertAt_perm x _ _).trans ((visit_perm ks xs).cons x)

theorem insertAt_indexOf_erase {α : Type} [DecidableEq α] (x : α) :
    ∀ (l : List α), x ∈ l → insertAt x (l.indexOf x) (l.erase x) = l := by
  intro l
  induction l with
  | nil => intro h; simp at h
  | cons y ys ih =>
    intro h
    by_cases hy : y = x
    · subst hy
      simp [insertAt]
    · have hx : x ∈ ys := by
        rcases List.mem_cons.1 h with h1 | h1
        · exact absurd h1.symm hy
        · exact h1
      have hb : ¬ (y == x) = true := by simpa using hy
      rw [List.indexOf_cons_ne _ hy, List.erase_cons_tail hb]
      simp [insertAt, ih hx]

/-- Every order of the entries is the order of some `range`. -/
theorem visit_any_order {α : Type} [DecidableEq α] :
    ∀ (l l2 : List α), l2.Perm l → ∃ ks, visit ks l = l2 := by
  intro l
  induction l with
  | nil =>
    intro l2 h
    exact ⟨[], by simp [visit, h.eq_nil]⟩
  | cons x xs ih =>
    intro l2 h
    have hx : x ∈ l2 := h.symm.subset (by simp)
    have hp : (l2.erase x).Perm xs := by
      have := h.erase x
      simpa using this
    obtain ⟨ks, hks⟩ := ih (l2.erase x) hp
    have hlen : l2.length = xs.length + 1 := by simpa using h.length_eq
    have hidx : l2.indexOf x < xs.length + 1 := by
      rw [← hlen]; exact List.indexOf_lt_length.2 hx
    refine ⟨l2.indexOf x :: ks, ?_⟩
    simp only [visit, hks, Nat.mod_eq_of_lt hidx]
    exact insertAt_indexOf_erase x l2 hx

theorem rangeAssign_append {α : Type} (items : List α) :
    ∀ (pre suf : List α), items.length ≤ suf.length →
      rangeAssign (pre ++ suf) pre.length items = some (pre ++ items ++ suf.drop items.length) := by
  induction items with
  | nil => intro pre suf _; simp [rangeAssign]
  | cons x xs ih =>
    intro pre suf hlen
    cases suf with
    | nil => simp at hlen
    | cons y suf =>
      have hlt : pre.length < (pre ++ y :: suf).length := by simp
      have hset : (pre ++ y :: suf).set pre.length x = (pre ++ [x]) ++ suf := by
        simp [List.set_append]
      have hlen2 : xs.length ≤ suf.length := by simpa using hlen
      have := ih (pre ++ [x]) suf hlen2
      simp only [rangeAssign, hlt, ↓reduceIte, hset]
      simpa using this

/-- The loop that copies the visited entries into a slice of the same length
fills the slice with them. -/
theorem rangeAssign_replicate {α : Type} (d : α) (items : List α) :
    rangeAssign (List.replicate items.length d) 0 items = some items := by
  have := rangeAssign_append items [] (List.replicate items.length d) (by simp)
  simpa using this

theorem rangeAssign_overflow {α : Type} (items : List α) :
    ∀ (pre suf : List α), suf.length < items.length →
      rangeAssign (pre ++ suf) pre.length items = none := by
  induction items with
  | nil => intro pre suf h; simp at h
  | cons x xs ih =>
    intro pre suf hlen
    cases suf with
    | nil => simp [rangeAssign]
    | cons y suf =>
      have hlt : pre.length < (pre ++ y :: suf).length := by simp
      have hset : (pre ++ y :: suf).set pre.length x = (pre ++ [x]) ++ suf := by
        simp [List.set_append]
      have hlen2 : suf.length < xs.length := by simpa using hlen
      have := ih (pre ++ [x]) suf hlen2
      simp only [rangeAssign, hlt, ↓reduceIte, hset]
      simpa using this

/-- The loop that copies more entries than the slice holds panics. -/
theorem rangeAssign_short {α : Type} (d : α) (n : Nat) (items : List α) (h : n < items.length) :
    rangeAssign (List.replicate n d) 0 items = none := by
  have := rangeAssign_overflow items [] (List.replicate n d) (by simpa using h)
  simpa using this

theorem rangeStore_perm (env : Env) (s : Store) :
    (rangeStore env s).Perm (s.entries.map fun e => (e.1, e.2)) :=
  visit_perm _ _

theorem rangeStore_length (env : Env) (s : Store) : (rangeStore env s).length = len s := by
  simpa [len] using (rangeStore_perm env s).length_eq

theorem rangeStore_keys_perm (env : Env) (s : Store) :
    ((rangeStore env s).map fun kv => kv.1).Perm s.keys := by
  have := (rangeStore_perm env s).map (fun kv : String × Coaster => kv.1)
  simpa [AList.keys, List.keys, Function.comp_def] using this

theorem len_eq_keys (s : Store) : len s = s.keys.length := by
  simp [len, AList.keys, List.keys]

/-- The size of the map after an assignment. -/
theorem len_insert (s : Store) (k : String) (v : Coaster) :
    len (s.insert k v) = if k ∈ s then len s else len s + 1 := by
  rw [len_eq_keys, len_eq_keys, AList.keys_insert]
  by_cases hk : k ∈ s
  · have hk2 : k ∈ s.keys := AList.mem_keys.1 hk
    have hpos : 0 < s.keys.length := List.length_pos_of_mem hk2
    simp [hk, List.length_erase_of_mem hk2]
    omega
  · have hk2 : k ∉ s.keys := fun h => hk (AList.mem_keys.2 h)
    simp [hk, List.erase_of_not_mem hk2]

/-! ## What each handler computes -/

theorem rangeAssign_values (env : Env) (s : Store) :
    rangeAssign (List.replicate (len s) Coaster.zero) 0 ((rangeStore env s).map fun kv => kv.2)
      = some ((rangeStore env s).map fun kv => kv.2) := by
  have h := rangeAssign_replicate Coaster.zero ((rangeStore env s).map fun kv => kv.2)
  simpa [rangeStore_length] using h

theorem rangeAssign_keys (env : Env) (s : Store) :
    rangeAssign (List.replicate (len s) "") 0 ((rangeStore env s).map fun kv => kv.1)
      = some ((rangeStore env s).map fun kv => kv.1) := by
  have h := rangeAssign_replicate "" ((rangeStore env s).map fun kv => kv.1)
  simpa [rangeStore_length] using h

/-- The handler `get` on a free mutex returns, leaves the shared state as it
was, and answers with the encoding of the visited values. -/
theorem get_returns (J : Json) (env : Env) (s : Store) :
    ∃ c, get J env (Ctx.start ⟨false, s⟩) = .ok c ∧ c.h = ⟨false, s⟩ ∧
      (∀ b, J.marshalSlice ((rangeStore env s).map fun kv => kv.2) = .ok b →
        c.w = ⟨[("content-type", "application/json")], some 200,
          [("content-type", "application/json")], b⟩) ∧
      (∀ err, J.marshalSlice ((rangeStore env s).map fun kv => kv.2) = .error err →
        c.w = ⟨[], some 500, [], err⟩) := by
  cases hb : J.marshalSlice ((rangeStore env s).map fun kv => kv.2) <;>
  simp [get, getLocked, Ctx.start, Ctx.Lock, Ctx.log, rangeAssign_values, hb, Ctx.Unlock,
    Ctx.HeaderAdd, Ctx.WriteHeader, Ctx.Write, ResponseWriter.new, ResponseWriter.HeaderAdd,
    ResponseWriter.WriteHeader, ResponseWriter.Write, StatusOK, StatusInternalServerError]

/-- The handler `post` on a free mutex returns with the mutex free; it answers
200 and stores the created entity under its id, or answers 500, 400 or 415
and leaves the map as it was. -/
theorem post_returns (J : Json) (env : Env) (r : Request) (s : Store) :
    ∃ c, post J env r (Ctx.start ⟨false, s⟩) = .ok c ∧
      match created J env r with
      | some e => c.h = ⟨false, s.insert e.Id e⟩ ∧ c.w.status = some 200
      | none => c.h = ⟨false, s⟩ ∧
          (c.w.status = some 500 ∨ c.w.status = some 400 ∨ c.w.status = some 415) := by
  unfold post created
  cases hB : r.Body with
  | error err =>
    simp [Ctx.start, Ctx.log, Ctx.WriteHeader, Ctx.Write, ResponseWriter.new,
      ResponseWriter.WriteHeader, ResponseWriter.Write, StatusInternalServerError]
  | ok bodyBytes =>
    cases hU : J.unmarshal bodyBytes with
    | error err =>
      simp [hU, Ctx.start, Ctx.log, Ctx.WriteHeader, Ctx.Write, ResponseWriter.new,
        ResponseWriter.WriteHeader, ResponseWriter.Write, StatusBadRequest]
    | ok e =>
      by_cases hct : r.contentType = "application/json"
      · simp [hU, hct, Ctx.start, Ctx.Lock, Ctx.log, Ctx.Unlock, Ctx.assign, Ctx.WriteHeader,
          Ctx.Write, ResponseWriter.new, ResponseWriter.WriteHeader, ResponseWriter.Write,
          StatusOK]
      · simp [hU, hct, Ctx.start, Ctx.log, Ctx.WriteHeader, Ctx.Write, ResponseWriter.new,
          ResponseWriter.WriteHeader, ResponseWriter.Write, StatusUnsupportedMediaType]

/-- The handler `randomHandler` on a free mutex returns and leaves the shared
state as it was; it answers 404 on an empty map and otherwise redirects to a
key of the map. -/
theorem randomHandler_returns (env : Env) (s : Store) :
    ∃ c, randomHandler env (Ctx.start ⟨false, s⟩) = .ok c ∧ c.h = ⟨false, s⟩ ∧
      (len s = 0 → c.w = ⟨[], some 404, [], "no coaster in the database"⟩) ∧
      (len s ≠ 0 → ∃ id ∈ s.keys, c.w =
        ⟨[("location", "/coasters/" ++ id)], some 302, [("location", "/coasters/" ++ id)], ""⟩) := by
  have hlen : ((rangeStore env s).map fun kv => kv.1).length = len s := by
    simp [rangeStore_length]
  have hmem : ∀ i, i < len s →
      ((rangeStore env s).map fun kv => kv.1).getD i "" ∈ s.keys := by
    intro i hi
    rw [List.getD_eq_getElem _ _ (by rw [hlen]; exact hi)]
    exact (rangeStore_keys_perm env s).subset (List.getElem_mem _)
  have hrun : randomHandler env (Ctx.start ⟨false, s⟩) =
      if len s = 0 then
        .ok ⟨⟨false, s⟩, ⟨[], some 404, [], "no coaster in the database"⟩,
          [(.storeLen, false), (.lock, false), (.storeRange, true), (.respond, true),
            (.respond, true), (.unlock, true)]⟩
      else if len s = 1 then
        .ok ⟨⟨false, s⟩,
          ⟨[("location", "/coasters/" ++ ((rangeStore env s).map fun kv => kv.1).getD 0 "")],
            some 302,
            [("location", "/coasters/" ++ ((rangeStore env s).map fun kv => kv.1).getD 0 "")], ""⟩,
          [(.storeLen, false), (.lock, false), (.storeRange, true), (.respond, true),
            (.respond, true), (.unlock, true)]⟩
      else
        .ok ⟨⟨false, s⟩,
          ⟨[("location", "/coasters/" ++
              ((rangeStore env s).map fun kv => kv.1).getD (env.rand % len s) "")],
            some 302,
            [("location", "/coasters/" ++
              ((rangeStore env s).map fun kv => kv.1).getD (env.rand % len s) "")], ""⟩,
          [(.storeLen, false), (.lock, false), (.storeRange, true), (.random, true),
            (.respond, true), (.respond, true), (.unlock, true)]⟩ := by
    simp only [randomHandler, randomLocked, Ctx.start, Ctx.Lock, Ctx.log, Bool.false_eq_true,
      ↓reduceIte, rangeAssign_keys, hlen]
    by_cases h0 : len s = 0
    · simp [h0, Ctx.Unlock, Ctx.WriteHeader, Ctx.Write, Ctx.log, ResponseWriter.new,
        ResponseWriter.WriteHeader, ResponseWriter.Write, StatusNotFound]
    · by_cases h1 : len s = 1 <;>
      simp [h0, h1, Ctx.Unlock, Ctx.WriteHeader, Ctx.HeaderAdd, Ctx.log, ResponseWriter.new,
        ResponseWriter.WriteHeader, ResponseWriter.HeaderAdd, StatusFound]
  rw [hrun]
  by_cases h0 : len s = 0
  · simp [h0]
  · by_cases h1 : len s = 1
    · rw [if_neg h0, if_pos h1]
      refine ⟨_, rfl, rfl, fun h => absurd h h0, fun _ => ?_⟩
      exact ⟨_, hmem 0 (by omega), rfl⟩
    · rw [if_neg h0, if_neg h1]
      refine ⟨_, rfl, rfl, fun h => absurd h h0, fun _ => ?_⟩
      exact ⟨_, hmem (env.rand % len s) (Nat.mod_lt _ (by omega)), rfl⟩

/-- The handler `getCoaster` on a path of other than three segments answers 404. -/
theorem getCoaster_malformed (J : Json) (env : Env) (r : Request) (s : Store)
    (hpath : (Split r.URL).length ≠ 3) :
    ∃ c, getCoaster J env r (Ctx.start ⟨false, s⟩) = .ok c ∧ c.h = ⟨false, s⟩ ∧
      c.w = ⟨[], some 404, [], "data with the specific id not exists"⟩ := by
  simp [getCoaster, hpath, Ctx.start, Ctx.log, Ctx.WriteHeader, Ctx.Write, ResponseWriter.new,
    ResponseWriter.WriteHeader, ResponseWriter.Write, StatusNotFound]

/-- The handler `getCoaster` on a path of three segments whose last is not
`random` looks the last segment up: 404 when absent, the encoded entity when
present. -/
theorem getCoaster_lookup (J : Json) (env : Env) (r : Request) (s : Store) (p0 p1 x : String)
    (hpath : Split r.URL = [p0, p1, x]) (hx : x ≠ "random") :
    ∃ c, getCoaster J env r (Ctx.start ⟨false, s⟩) = .ok c ∧ c.h = ⟨false, s⟩ ∧
      match s.lookup x with
      | none => c.w = ⟨[], some 404, [], "data with the specific id not exists"⟩
      | some e =>
        match J.marshal e with
        | .ok b => c.w = ⟨[("content-type", "application/json")], some 200,
            [("content-type", "application/json")], b⟩
        | .error err => c.w = ⟨[], some 415, [], err⟩ := by
  unfold getCoaster
  rw [hpath]
  cases hl : s.lookup x with
  | none =>
    simp [hx, hl, Ctx.start, Ctx.Lock, Ctx.Unlock, Ctx.log, Ctx.WriteHeader,
      Ctx.Write, ResponseWriter.new, ResponseWriter.WriteHeader, ResponseWriter.Write,
      StatusNotFound]
  | some e =>
    cases hm : J.marshal e <;>
    simp [hx, hl, hm, Ctx.start, Ctx.Lock, Ctx.Unlock, Ctx.log,
      Ctx.WriteHeader, Ctx.Write, Ctx.HeaderAdd, ResponseWriter.new, ResponseWriter.WriteHeader,
      ResponseWriter.Write, ResponseWriter.HeaderAdd, StatusOK, StatusUnsupportedMediaType]

/-- The handler `getCoaster` on a free mutex returns and leaves the shared state as it was. -/
theorem getCoaster_returns (J : Json) (env : Env) (r : Request) (s : Store) :
    ∃ c, getCoaster J env r (Ctx.start ⟨false, s⟩) = .ok c ∧ c.h = ⟨false, s⟩ := by
  by_cases hpath : (Split r.URL).length = 3
  · by_cases hr : (Split r.URL).getD 2 "" = "random"
    · obtain ⟨c, hc, hh, _⟩ := randomHandler_returns env s
      have hg : getCoaster J env r (Ctx.start ⟨false, s⟩)
          = randomHandler env (Ctx.start ⟨false, s⟩) := by
        unfold getCoaster
        simp only [hpath, ne_eq, not_true_eq_false, ↓reduceIte, hr]
      exact ⟨c, by rw [hg, hc], hh⟩
    · obtain ⟨p0, p1, p2, hp⟩ : ∃ p0 p1 p2, Split r.URL = [p0, p1, p2] := by
        match hs : Split r.URL, hpath with
        | [p0, p1, p2], _ => exact ⟨p0, p1, p2, rfl⟩
      have hr2 : p2 ≠ "random" := by simpa [hp] using hr
      obtain ⟨c, hc, hh, _⟩ := getCoaster_lookup J env r s p0 p1 p2 hp hr2
      exact ⟨c, hc, hh⟩
  · obtain ⟨c, hc, hh, _⟩ := getCoaster_malformed J env r s hpath
    exact ⟨c, hc, hh⟩

/-- The handler `coasters` on a free mutex returns with the mutex free, and the
map it leaves is the one computed from the request. -/
theorem coasters_returns (J : Json) (env : Env) (r : Request) (s : Store) :
    ∃ c, coasters J env r (Ctx.start ⟨false, s⟩) = .ok c ∧
      c.h = ⟨false, nextStore J s (env, .coasters r)⟩ ∧
      (r.Method = "POST" → (c.w.status = some 200 ↔ (created J env r).isSome)) := by
  by_cases hG : r.Method = "GET"
  · obtain ⟨c, hc, hh, _⟩ := get_returns J env s
    refine ⟨c, by simp [coasters, hG, hc], ?_, ?_⟩
    · simp [nextStore, effect, hG, hh]
    · intro hP; rw [hG] at hP; exact absurd hP (by decide)
  · by_cases hP : r.Method = "POST"
    · obtain ⟨c, hc, hspec⟩ := post_returns J env r s
      refine ⟨c, by simp [coasters, hG, hP, hc], ?_, ?_⟩
      · cases hcr : created J env r with
        | none => rw [hcr] at hspec; simp [nextStore, effect, hP, hcr, hspec.1]
        | some e => rw [hcr] at hspec; simp [nextStore, effect, hP, hcr, hspec.1]
      · intro _
        cases hcr : created J env r with
        | none =>
          rw [hcr] at hspec
          rcases hspec.2 with h | h | h <;> simp [h]
        | some e => rw [hcr] at hspec; simp [hspec.2]
    · simp [coasters, hG, hP, nextStore, effect, Ctx.start, Ctx.log, Ctx.WriteHeader, Ctx.Write]

/-- Every request served on a free mutex returns with the mutex free, and the
map it leaves is the one computed from the call. -/
theorem serve_returns (J : Json) (a : adminPortal) (s : Store) (env : Env) (call : Call) :
    ∃ c, serve J a ⟨false, s⟩ env call = .ok c ∧ c.h = ⟨false, nextStore J s (env, call)⟩ ∧
      (∀ r, call = .coasters r → r.Method = "POST" →
        (c.w.status = some 200 ↔ (created J env r).isSome)) := by
  cases call with
  | coasters r =>
    obtain ⟨c, hc, hh, hs⟩ := coasters_returns J env r s
    exact ⟨c, hc, hh, fun r2 h2 => by cases h2; exact hs⟩
  | getCoaster r =>
    obtain ⟨c, hc, hh⟩ := getCoaster_returns J env r s
    exact ⟨c, hc, by simpa [nextStore, effect] using hh, fun r2 h2 => by cases h2⟩
  | admin r =>
    exact ⟨_, rfl, by simp [nextStore, effect], fun r2 h2 => by cases h2⟩

/-! ## Sequences of requests -/

theorem created_some (J : Json) (env : Env) (r : Request) (e : Coaster)
    (h : created J env r = some e) :
    r.contentType = "application/json" ∧ ∃ b e0, r.Body = .ok b ∧ J.unmarshal b = .ok e0 ∧
      e = ⟨e0.Name, Itoa (env.rand % 10000), e0.Manufacturer, e0.InPark⟩ := by
  unfold created at h
  cases hB : r.Body with
  | error err => simp [hB] at h
  | ok b =>
    cases hU : J.unmarshal b with
    | error err => simp [hB, hU] at h
    | ok e0 =>
      by_cases hct : r.contentType = "application/json"
      · simp [hB, hU, hct] at h
        exact ⟨hct, b, e0, rfl, hU, h.symm⟩
      · simp [hB, hU, hct] at h

theorem created_of (J : Json) (env : Env) (r : Request) (b : String) (e0 : Coaster)
    (hB : r.Body = .ok b) (hU : J.unmarshal b = .ok e0)
    (hct : r.contentType = "application/json") :
    created J env r = some ⟨e0.Name, Itoa (env.rand % 10000), e0.Manufacturer, e0.InPark⟩ := by
  simp [created, hB, hU, hct]

theorem effect_some (J : Json) (env : Env) (call : Call) (e : Coaster)
    (h : effect J env call = some e) :
    ∃ r, call = .coasters r ∧ r.Method = "POST" ∧ created J env r = some e := by
  cases call with
  | coasters r =>
    by_cases hP : r.Method = "POST"
    · exact ⟨r, rfl, hP, by simpa [effect, hP] using h⟩
    · simp [effect, hP] at h
  | getCoaster r => simp [effect] at h
  | admin r => simp [effect] at h

theorem effect_Id (J : Json) (env : Env) (call : Call) (e : Coaster)
    (h : effect J env call = some e) : e.Id = Itoa (env.rand % 10000) := by
  obtain ⟨r, _, _, hc⟩ := effect_some J env call e h
  obtain ⟨_, b, e0, _, _, he⟩ := created_some J env r e hc
  rw [he]

/-- A sequence of requests served from a free mutex is served to its end; the
final map is the one computed call by call, and the ids of its successful
POSTs are those of the entities put in the map. -/
theorem run_returns (J : Json) (a : adminPortal) :
    ∀ (cs : List (Env × Call)) (s : Store),
      ∃ ws, run J a ⟨false, s⟩ cs = some (⟨false, cs.foldl (nextStore J) s⟩, ws) ∧
        successfulIds cs ws = cs.filterMap (fun ec => (effect J ec.1 ec.2).map fun e => e.Id) ∧
        (∀ ec ∈ cs, ∃ w ∈ ws, ∀ r, ec.2 = .coasters r → r.Method = "POST" →
          (w.status = some 200 ↔ (created J ec.1 r).isSome)) := by
  intro cs
  induction cs with
  | nil => intro s; exact ⟨[], rfl, rfl, by simp⟩
  | cons ec cs ih =>
    intro s
    obtain ⟨env, call⟩ := ec
    obtain ⟨c, hc, hh, hst⟩ := serve_returns J a s env call
    obtain ⟨ws, hrun, hids, hall⟩ := ih (nextStore J s (env, call))
    refine ⟨c.w :: ws, ?_, ?_, ?_⟩
    · simp [run, hc, hh, hrun]
    · cases call with
      | coasters r =>
        by_cases hP : r.Method = "POST"
        · have hiff := hst r rfl hP
          cases hcr : created J env r with
          | none =>
            have h200 : ¬ c.w.status = some 200 := by rw [hiff, hcr]; simp
            simp [successfulIds, hP, h200, effect, hcr, hids]
          | some e =>
            have h200 : c.w.status = some 200 := by rw [hiff, hcr]; simp
            have hId : e.Id = Itoa (env.rand % 10000) :=
              effect_Id J env (.coasters r) e (by simp [effect, hP, hcr])
            simp [successfulIds, hP, h200, effect, hcr, hids, hId]
        · simp [successfulIds, hP, effect, hids]
      | getCoaster r => simp [successfulIds, effect, hids]
      | admin r => simp [successfulIds, effect, hids]
    · intro ec hec
      rcases List.mem_cons.1 hec with rfl | hec
      · exact ⟨c.w, by simp, fun r hr hP => hst r hr hP⟩
      · obtain ⟨w, hw, hprop⟩ := hall ec hec
        exact ⟨w, List.mem_cons_of_mem _ hw, hprop⟩

/-- Every entry of the map after a sequence of calls was there before or was
put there, under its own id, by one of the calls. -/
theorem foldl_nextStore_lookup (J : Json) :
    ∀ (cs : List (Env × Call)) (s : Store) (k : String) (e : Coaster),
      (cs.foldl (nextStore J) s).lookup k = some e →
        s.lookup k = some e ∨ ∃ ec ∈ cs, effect J ec.1 ec.2 = some e ∧ e.Id = k := by
  intro cs
  induction cs with
  | nil => intro s k e h; exact Or.inl h
  | cons ec cs ih =>
    intro s k e h
    rcases ih (nextStore J s ec) k e h with h1 | ⟨ec2, hmem, heff⟩
    · cases hef : effect J ec.1 ec.2 with
      | none =>
        left
        simpa [nextStore, hef] using h1
      | some e2 =>
        simp only [nextStore, hef] at h1
        by_cases hk : k = e2.Id
        · subst hk
          rw [AList.lookup_insert] at h1
          have : e2 = e := by simpa using h1
          subst this
          exact Or.inr ⟨ec, by simp, hef, rfl⟩
        · rw [AList.lookup_insert_ne hk] at h1
          exact Or.inl h1
    · exact Or.inr ⟨ec2, List.mem_cons_of_mem _ hmem, heff⟩

/-- Every entry of the map after a sequence of calls was there before and no
call put an entity under its key, or was put there by a call after which no
call put an entity under the same key. -/
theorem foldl_nextStore_lookup_last (J : Json) :
    ∀ (cs : List (Env × Call)) (s : Store) (k : String) (e : Coaster),
      (cs.foldl (nextStore J) s).lookup k = some e →
        (s.lookup k = some e ∧
          ∀ ec ∈ cs, ∀ e2, effect J ec.1 ec.2 = some e2 → e2.Id ≠ k) ∨
        ∃ pre ec post, cs = pre ++ ec :: post ∧ effect J ec.1 ec.2 = some e ∧ e.Id = k ∧
          ∀ ec2 ∈ post, ∀ e2, effect J ec2.1 ec2.2 = some e2 → e2.Id ≠ k := by
  intro cs
  induction cs with
  | nil => intro s k e h; exact Or.inl ⟨h, by simp⟩
  | cons ec cs ih =>
    intro s k e h
    rcases ih (nextStore J s ec) k e h with ⟨h1, hrest⟩ | ⟨pre, ec2, post, hcs, hef, hid, hpost⟩
    · cases hef : effect J ec.1 ec.2 with
      | none =>
        left
        refine ⟨by simpa [nextStore, hef] using h1, ?_⟩
        intro ec2 hec2 e2 he2
        rcases List.mem_cons.1 hec2 with rfl | hmem
        · rw [hef] at he2; cases he2
        · exact hrest ec2 hmem e2 he2
      | some e1 =>
        simp only [nextStore, hef] at h1
        by_cases hk : k = e1.Id
        · subst hk
          rw [AList.lookup_insert] at h1
          have : e1 = e := by simpa using h1
          subst this
          exact Or.inr ⟨[], ec, cs, rfl, hef, rfl, hrest⟩
        · rw [AList.lookup_insert_ne hk] at h1
          left
          refine ⟨h1, ?_⟩
          intro ec2 hec2 e2 he2
          rcases List.mem_cons.1 hec2 with rfl | hmem
          · rw [hef] at he2
            cases he2
            exact fun h => hk h.symm
          · exact hrest ec2 hmem e2 he2
    · exact Or.inr ⟨ec :: pre, ec2, post, by rw [hcs]; rfl, hef, hid, hpost⟩

/-- The keys of the map after a sequence of calls are those it had before and
the ids of the entities the calls put in it. -/
theorem foldl_nextStore_mem (J : Json) :
    ∀ (cs : List (Env × Call)) (s : Store) (k : String),
      k ∈ cs.foldl (nextStore J) s ↔
        k ∈ s ∨ k ∈ cs.filterMap (fun ec => (effect J ec.1 ec.2).map fun e => e.Id) := by
  intro cs
  induction cs with
  | nil => intro s k; simp
  | cons ec cs ih =>
    intro s k
    rw [List.foldl_cons, ih]
    cases hef : effect J ec.1 ec.2 with
    | none => simp [nextStore, hef]
    | some e2 =>
      simp only [nextStore, hef, AList.mem_insert, List.filterMap_cons, Option.map_some',
        List.mem_cons]
      tauto

theorem sampleJson_marshalTotal : sampleJson.MarshalTotal :=
  ⟨fun _ => ⟨_, rfl⟩, fun _ => ⟨_, rfl⟩⟩

/-! ## Create, then fetch -/

/-- C1: on every store, a POST on the collection endpoint whose body is read
and decodes to an entity `e` and whose content-type is exactly
`application/json` is answered 200; the id generated is the decimal text of a
number below 10000, and a GET of `/coasters/` followed by that id, served
next, is answered 200 with the JSON encoding of the entity that has the name,
manufacturer and park of `e` and the generated id, whatever id `e` carried. -/
theorem post_then_getCoaster_roundtrip (J : Json) (hJ : J.MarshalTotal) (a : adminPortal)
    (s : Store) (envP envG : Env) (rP rG : Request) (bodyBytes : String) (e : Coaster)
    (hM : rP.Method = "POST") (hB : rP.Body = .ok bodyBytes)
    (hU : J.unmarshal bodyBytes = .ok e) (hct : rP.contentType = "application/json")
    (hurl : rG.URL = "/coasters/" ++ Itoa (envP.rand % 10000)) :
    envP.rand % 10000 < 10000 ∧
    ∃ c1, serve J a ⟨false, s⟩ envP (.coasters rP) = .ok c1 ∧ c1.w.status = some 200 ∧
      ∃ c2, serve J a c1.h envG (.getCoaster rG) = .ok c2 ∧ c2.w.status = some 200 ∧
        c2.w.sent = [("content-type", "application/json")] ∧
        J.marshal ⟨e.Name, Itoa (envP.rand % 10000), e.Manufacturer, e.InPark⟩
          = .ok c2.w.body := by
  refine ⟨Nat.mod_lt _ (by decide), ?_⟩
  have hcr := created_of J envP rP bodyBytes e hB hU hct
  obtain ⟨c1, hc1, hh1, hst1⟩ := serve_returns J a s envP (.coasters rP)
  have h200 : c1.w.status = some 200 := by
    rw [hst1 rP rfl hM, hcr]; rfl
  refine ⟨c1, hc1, h200, ?_⟩
  have hstore : c1.h = ⟨false, s.insert (Itoa (envP.rand % 10000))
      ⟨e.Name, Itoa (envP.rand % 10000), e.Manufacturer, e.InPark⟩⟩ := by
    rw [hh1]; simp [nextStore, effect, hM, hcr]
  have hpath : Split rG.URL = ["", "coasters", Itoa (envP.rand % 10000)] := by
    rw [hurl]; exact Split_coasters_of_no_slash _ (Itoa_no_slash _)
  obtain ⟨c2, hc2, _, hw2⟩ := getCoaster_lookup J envG rG
    (s.insert (Itoa (envP.rand % 10000))
      ⟨e.Name, Itoa (envP.rand % 10000), e.Manufacturer, e.InPark⟩)
    "" "coasters" (Itoa (envP.rand % 10000)) hpath (Itoa_ne_random _)
  rw [AList.lookup_insert] at hw2
  obtain ⟨b, hb⟩ := hJ.1 ⟨e.Name, Itoa (envP.rand % 10000), e.Manufacturer, e.InPark⟩
  simp only [hb] at hw2
  refine ⟨c2, by rw [hstore]; exact hc2, ?_, ?_, ?_⟩
  · rw [hw2]
  · rw [hw2]
  · rw [hw2, hb]

theorem post_then_getCoaster_roundtrip_witness :
    7 % 10000 < 10000 ∧
    ∃ c1, serve sampleJson ⟨"secret"⟩ ⟨false, ∅⟩ ⟨7, []⟩ (.coasters kingdaPost) = .ok c1 ∧
      c1.w.status = some 200 ∧
      ∃ c2, serve sampleJson ⟨"secret"⟩ c1.h ⟨0, []⟩ (.getCoaster (getRequest "/coasters/7"))
          = .ok c2 ∧ c2.w.status = some 200 ∧
        c2.w.sent = [("content-type", "application/json")] ∧
        sampleJson.marshal ⟨"Kingda Ka", Itoa (7 % 10000), "Intamin", "Six Flags"⟩
          = .ok c2.w.body :=
  post_then_getCoaster_roundtrip sampleJson sampleJson_marshalTotal ⟨"secret"⟩ ∅ ⟨7, []⟩ ⟨0, []⟩
    kingdaPost (getRequest "/coasters/7") kingdaBody ⟨"Kingda Ka", "mine", "Intamin", "Six Flags"⟩
    rfl rfl (by rfl) rfl (by decide)

/-! ## Create with another content-type -/

/-- C2, counterexample: a POST with content-type `text/plain` is answered 400
when its body is not JSON, and 500 when its body cannot be read; in neither
case 415. -/
theorem post_wrong_content_type_not_415 :
    (serve sampleJson ⟨"secret"⟩ newCoasterHandlers ⟨0, []⟩
        (.coasters ⟨"POST", "/coasters", "text/plain", .ok "not json", none⟩)).status
      = some 400 ∧
    (serve sampleJson ⟨"secret"⟩ newCoasterHandlers ⟨0, []⟩
        (.coasters ⟨"POST", "/coasters", "text/plain", .error "unexpected EOF", none⟩)).status
      = some 500 := by
  constructor <;> decide

/-- C2, amended: a POST on the collection endpoint whose content-type is not
exactly `application/json` is answered 500 when the body cannot be read, 400
when the body is read and does not decode, and 415 when the body is read and
decodes; the shared state is left as it was. -/
theorem post_wrong_content_type_status (J : Json) (a : adminPortal) (h : coasterHandlers)
    (env : Env) (r : Request) (hM : r.Method = "POST")
    (hct : r.contentType ≠ "application/json") :
    ∃ c, serve J a h env (.coasters r) = .ok c ∧ c.h = h ∧
      c.w.status =
        match r.Body with
        | .error _ => some 500
        | .ok bodyBytes =>
          match J.unmarshal bodyBytes with
          | .error _ => some 400
          | .ok _ => some 415 := by
  have hG : r.Method ≠ "GET" := by rw [hM]; decide
  cases hB : r.Body with
  | error err =>
    simp [serve, coasters, post, hM, hB, Ctx.start, Ctx.log, Ctx.WriteHeader, Ctx.Write,
      ResponseWriter.new, ResponseWriter.WriteHeader, ResponseWriter.Write,
      StatusInternalServerError]
  | ok bodyBytes =>
    cases hU : J.unmarshal bodyBytes with
    | error err =>
      simp [serve, coasters, post, hM, hB, hU, Ctx.start, Ctx.log, Ctx.WriteHeader, Ctx.Write,
        ResponseWriter.new, ResponseWriter.WriteHeader, ResponseWriter.Write, StatusBadRequest]
    | ok e =>
      simp [serve, coasters, post, hM, hB, hU, hct, Ctx.start, Ctx.log, Ctx.WriteHeader,
        Ctx.Write, ResponseWriter.new, ResponseWriter.WriteHeader, ResponseWriter.Write,
        StatusUnsupportedMediaType]

theorem post_wrong_content_type_status_witness :
    ∃ c, serve sampleJson ⟨"secret"⟩ newCoasterHandlers ⟨0, []⟩
        (.coasters { furyPost with contentType := "Application/JSON" }) = .ok c ∧
      c.h = newCoasterHandlers ∧
      c.w.status =
        match ({ furyPost with contentType := "Application/JSON" } : Request).Body with
        | .error _ => some 500
        | .ok bodyBytes =>
          match sampleJson.unmarshal bodyBytes with
          | .error _ => some 400
          | .ok _ => some 415 :=
  post_wrong_content_type_status sampleJson ⟨"secret"⟩ newCoasterHandlers ⟨0, []⟩
    { furyPost with contentType := "Application/JSON" } rfl (by decide)

/-! ## The admin endpoint -/

/-- C6: for every request and every configured password, the admin handler
answers 200 exactly when the request carries Basic credentials whose user is
`admin` and whose password is the configured one, and 401 in every other case
(no credentials, another user, another password). -/
theorem admin_handler_status (J : Json) (a : adminPortal) (h : coasterHandlers) (env : Env)
    (r : Request) :
    ∃ c, serve J a h env (.admin r) = .ok c ∧
      c.w.status = if r.basicAuth = some ("admin", a.password) then some 200 else some 401 := by
  refine ⟨_, rfl, ?_⟩
  rcases hb : r.basicAuth with _ | ⟨user, pass⟩
  · simp [adminPortal.handler, Request.BasicAuth, hb, ResponseWriter.new,
      ResponseWriter.WriteHeader, ResponseWriter.Write, StatusUnauthorized]
  · by_cases hu : user = "admin"
    · by_cases hp : pass = a.password
      · simp [adminPortal.handler, Request.BasicAuth, hb, hu, hp, ResponseWriter.new,
          ResponseWriter.WriteHeader, ResponseWriter.Write, StatusOK]
      · simp [adminPortal.handler, Request.BasicAuth, hb, hu, hp, ResponseWriter.new,
          ResponseWriter.WriteHeader, ResponseWriter.Write, StatusUnauthorized]
    · simp [adminPortal.handler, Request.BasicAuth, hb, hu, ResponseWriter.new,
        ResponseWriter.WriteHeader, ResponseWriter.Write, StatusUnauthorized]

/-! ## The random redirect -/

/-- C4: on every store, a request for `/coasters/random` is answered 404 when
the store is empty; when it is not, it is answered 302 with a `location`
header `/coasters/` followed by a key of the store, whatever the random pick
and the visiting order, and that key is the only key when there is just one. -/
theorem getCoaster_random (J : Json) (a : adminPortal) (s : Store) (env : Env) (r : Request) :
    ∃ c, serve J a ⟨false, s⟩ env (.getCoaster { r with URL := "/coasters/random" }) = .ok c ∧
      if s.keys = [] then c.w.status = some 404
      else c.w.status = some 302 ∧
        ∃ id ∈ s.keys, c.w.sent = [("location", "/coasters/" ++ id)] ∧
          ∀ k, s.keys = [k] → id = k := by
  obtain ⟨c, hc, _, h0, h1⟩ := randomHandler_returns env s
  have hg : getCoaster J env { r with URL := "/coasters/random" } (Ctx.start ⟨false, s⟩)
      = randomHandler env (Ctx.start ⟨false, s⟩) := by
    have hsplit : Split "/coasters/random" = ["", "coasters", "random"] := by decide
    unfold getCoaster
    simp only [hsplit]
    rfl
  refine ⟨c, by simp only [serve]; rw [hg, hc], ?_⟩
  by_cases hk : s.keys = []
  · rw [if_pos hk, h0 (by rw [len_eq_keys, hk]; rfl)]
  · rw [if_neg hk]
    have hne : len s ≠ 0 := by
      rw [len_eq_keys]
      exact fun h => hk (List.length_eq_zero.1 h)
    obtain ⟨id, hid, hw⟩ := h1 hne
    refine ⟨by rw [hw], id, hid, by rw [hw], ?_⟩
    intro k hk1
    rw [hk1] at hid
    simpa using hid

/-! ## What a request changes in the store -/

/-- C10: on every store, a call that is not a POST on the collection endpoint
answered 200 is served to its end and leaves the map exactly as it was: that
covers the collection endpoint under any other method, the item endpoint
(fetch by id, random, malformed path), the admin endpoint, and a POST answered
otherwise, whose status is then 500, 400 or 415. -/
theorem store_unchanged (J : Json) (a : adminPortal) (s : Store) (env : Env) (call : Call)
    (hno : ∀ r, call = .coasters r → r.Method = "POST" →
      (serve J a ⟨false, s⟩ env call).status ≠ some 200) :
    ∃ c, serve J a ⟨false, s⟩ env call = .ok c ∧ c.h.store = s ∧
      (∀ r, call = .coasters r → r.Method = "POST" →
        c.w.status = some 500 ∨ c.w.status = some 400 ∨ c.w.status = some 415) := by
  obtain ⟨c, hc, hh, hst⟩ := serve_returns J a s env call
  have hno2 : ∀ r, call = .coasters r → r.Method = "POST" → c.w.status ≠ some 200 := by
    intro r hcall hP
    have := hno r hcall hP
    rwa [hc] at this
  refine ⟨c, hc, ?_, ?_⟩
  · rw [hh]
    cases hef : effect J env call with
    | none => simp [nextStore, hef]
    | some e =>
      obtain ⟨r, hcall, hP, hcr⟩ := effect_some J env call e hef
      have h200 : c.w.status = some 200 := by rw [hst r hcall hP, hcr]; rfl
      exact absurd h200 (hno2 r hcall hP)
  · intro r hcall hP
    have hne := hno2 r hcall hP
    subst hcall
    obtain ⟨c2, hc2, hspec⟩ := post_returns J env r s
    have hG : r.Method ≠ "GET" := by rw [hP]; decide
    have hc3 : serve J a ⟨false, s⟩ env (.coasters r) = .ok c2 := by
      simp [serve, coasters, hG, hP, hc2]
    have hcc : c = c2 := by
      rw [hc] at hc3
      exact Result.ok.inj hc3
    subst hcc
    cases hcr : created J env r with
    | none => rw [hcr] at hspec; exact hspec.2
    | some e =>
      have h200 : c.w.status = some 200 := by rw [hst r rfl hP, hcr]; rfl
      contradiction

theorem store_unchanged_witness :
    ∃ c, serve sampleJson ⟨"secret"⟩ ⟨false, (∅ : Store).insert "7" ⟨"Fury", "7", "B&M", "Carowinds"⟩⟩
        ⟨8, []⟩ (.coasters { kingdaPost with contentType := "text/plain" }) = .ok c ∧
      c.h.store = (∅ : Store).insert "7" ⟨"Fury", "7", "B&M", "Carowinds"⟩ ∧
      (∀ r, Call.coasters { kingdaPost with contentType := "text/plain" } = .coasters r →
        r.Method = "POST" →
        c.w.status = some 500 ∨ c.w.status = some 400 ∨ c.w.status = some 415) :=
  store_unchanged sampleJson ⟨"secret"⟩ ((∅ : Store).insert "7" ⟨"Fury", "7", "B&M", "Carowinds"⟩)
    ⟨8, []⟩ (.coasters { kingdaPost with contentType := "text/plain" })
    (fun _ _ _ => by decide)

/-- C8: a POST on the collection endpoint that is answered 200 stores, under
the generated id `g`, the posted entity with id `g`, and leaves the entry
under every other key as it was; when `g` was a key already the number of
entries is unchanged, and when it was not the number grows by exactly one. -/
theorem post_collision_semantics (J : Json) (a : adminPortal) (s : Store) (env : Env)
    (r : Request) (hM : r.Method = "POST")
    (h200 : (serve J a ⟨false, s⟩ env (.coasters r)).status = some 200) :
    ∃ c, serve J a ⟨false, s⟩ env (.coasters r) = .ok c ∧
      (∃ b e, r.Body = .ok b ∧ J.unmarshal b = .ok e ∧
        c.h.store.lookup (Itoa (env.rand % 10000))
          = some ⟨e.Name, Itoa (env.rand % 10000), e.Manufacturer, e.InPark⟩) ∧
      (∀ k, k ≠ Itoa (env.rand % 10000) → c.h.store.lookup k = s.lookup k) ∧
      len c.h.store = if Itoa (env.rand % 10000) ∈ s then len s else len s + 1 := by
  obtain ⟨c, hc, hh, hst⟩ := serve_returns J a s env (.coasters r)
  refine ⟨c, hc, ?_⟩
  have h200c : c.w.status = some 200 := by rwa [hc] at h200
  have hsome : (created J env r).isSome := (hst r rfl hM).1 h200c
  obtain ⟨e, hcr⟩ := Option.isSome_iff_exists.1 hsome
  obtain ⟨_, b, e0, hB, hU, he⟩ := created_some J env r e hcr
  have hstore : c.h.store = s.insert (Itoa (env.rand % 10000))
      ⟨e0.Name, Itoa (env.rand % 10000), e0.Manufacturer, e0.InPark⟩ := by
    rw [hh]; simp [nextStore, effect, hM, hcr, he]
  rw [hstore]
  refine ⟨⟨b, e0, hB, hU, AList.lookup_insert _⟩, ?_, len_insert _ _ _⟩
  intro k hk
  exact AList.lookup_insert_ne hk

theorem post_collision_semantics_witness :
    ∃ c, serve sampleJson ⟨"secret"⟩
        ⟨false, (∅ : Store).insert "7" ⟨"Fury", "7", "B&M", "Carowinds"⟩⟩ ⟨7, []⟩
        (.coasters kingdaPost) = .ok c ∧
      (∃ b e, kingdaPost.Body = .ok b ∧ sampleJson.unmarshal b = .ok e ∧
        c.h.store.lookup (Itoa (7 % 10000))
          = some ⟨e.Name, Itoa (7 % 10000), e.Manufacturer, e.InPark⟩) ∧
      (∀ k, k ≠ Itoa (7 % 10000) → c.h.store.lookup k
        = ((∅ : Store).insert "7" ⟨"Fury", "7", "B&M", "Carowinds"⟩).lookup k) ∧
      len c.h.store =
        if Itoa (7 % 10000) ∈ (∅ : Store).insert "7" ⟨"Fury", "7", "B&M", "Carowinds"⟩ then
          len ((∅ : Store).insert "7" ⟨"Fury", "7", "B&M", "Carowinds"⟩)
        else len ((∅ : Store).insert "7" ⟨"Fury", "7", "B&M", "Carowinds"⟩) + 1 :=
  post_collision_semantics sampleJson ⟨"secret"⟩
    ((∅ : Store).insert "7" ⟨"Fury", "7", "B&M", "Carowinds"⟩) ⟨7, []⟩ kingdaPost rfl
    (by decide)

/-! ## Invariants of the reachable stores -/

/-- C7: whatever sequence of calls is served from the empty store (any
endpoint, method, body and content-type), the sequence is served to its end
and every entry of the final map has an id equal to its key, which is not
empty. -/
theorem store_invariant (J : Json) (a : adminPortal) (cs : List (Env × Call)) :
    ∃ h ws, run J a newCoasterHandlers cs = some (h, ws) ∧
      ∀ k e, Sigma.mk k e ∈ h.store.entries → e.Id = k ∧ k ≠ "" := by
  obtain ⟨ws, hrun, _, _⟩ := run_returns J a cs ∅
  refine ⟨_, ws, hrun, ?_⟩
  intro k e hmem
  have hl : (cs.foldl (nextStore J) ∅).lookup k = some e :=
    Option.mem_def.1 (AList.mem_lookup_iff.2 hmem)
  rcases foldl_nextStore_lookup J cs ∅ k e hl with h0 | ⟨ec, _, hef, hid⟩
  · simp at h0
  · refine ⟨hid, ?_⟩
    rw [← hid, effect_Id J ec.1 ec.2 e hef]
    exact Itoa_ne_empty _

/-- C5: whatever sequence of calls is served from the empty store, a request
for `/coasters/x` served next, with `x` other than `random` and not the id
generated by a POST of the sequence that was answered 200, is answered 404. -/
theorem getCoaster_unknown_id (J : Json) (a : adminPortal) (cs : List (Env × Call))
    (x : String) (env : Env) (r : Request) (hurl : r.URL = "/coasters/" ++ x)
    (hx : x ≠ "random")
    (hnot : x ∉ successfulIds cs (responses J a newCoasterHandlers cs)) :
    ∃ h ws, run J a newCoasterHandlers cs = some (h, ws) ∧
      ∃ c, serve J a h env (.getCoaster r) = .ok c ∧ c.w.status = some 404 := by
  obtain ⟨ws, hrun, hids, _⟩ := run_returns J a cs ∅
  have hresp : responses J a newCoasterHandlers cs = ws := by
    simp only [responses, newCoasterHandlers]
    rw [hrun]
  rw [hresp] at hnot
  refine ⟨_, ws, hrun, ?_⟩
  have hnotin : x ∉ cs.foldl (nextStore J) ∅ := by
    rw [foldl_nextStore_mem, ← hids]
    simpa using hnot
  have hnone : (cs.foldl (nextStore J) ∅).lookup x = none := AList.lookup_eq_none.2 hnotin
  by_cases hlen : (Split r.URL).length = 3
  · have hpath : Split r.URL = ["", "coasters", x] := by
      rw [hurl] at hlen ⊢
      exact Split_coasters_three x hlen
    obtain ⟨c, hc, _, hw⟩ := getCoaster_lookup J env r _ "" "coasters" x hpath hx
    rw [hnone] at hw
    exact ⟨c, hc, by rw [hw]⟩
  · obtain ⟨c, hc, _, hw⟩ := getCoaster_malformed J env r (cs.foldl (nextStore J) ∅) hlen
    exact ⟨c, hc, by rw [hw]⟩

theorem getCoaster_unknown_id_witness :
    ∃ h ws, run sampleJson ⟨"secret"⟩ newCoasterHandlers
        [(⟨7, []⟩, .coasters furyPost), (⟨0, []⟩, .getCoaster (getRequest "/coasters/7"))]
        = some (h, ws) ∧
      ∃ c, serve sampleJson ⟨"secret"⟩ h ⟨0, []⟩ (.getCoaster (getRequest "/coasters/8")) = .ok c ∧
        c.w.status = some 404 :=
  getCoaster_unknown_id sampleJson ⟨"secret"⟩
    [(⟨7, []⟩, .coasters furyPost), (⟨0, []⟩, .getCoaster (getRequest "/coasters/7"))]
    "8" ⟨0, []⟩ (getRequest "/coasters/8") (by decide) (by decide) (by decide)

/-! ## Listing after creates -/

theorem filterMap_effect_creates (J : Json) :
    ∀ (ps : List (Env × Request)),
      (∀ p ∈ ps, p.2.Method = "POST" ∧ (created J p.1 p.2).isSome) →
        (ps.map fun p => (p.1, Call.coasters p.2)).filterMap
            (fun ec => (effect J ec.1 ec.2).map fun e => e.Id)
          = ps.map fun p => Itoa (p.1.rand % 10000) := by
  intro ps
  induction ps with
  | nil => intro _; rfl
  | cons p ps ih =>
    intro hall
    obtain ⟨hP, hsome⟩ := hall p (by simp)
    obtain ⟨e, hcr⟩ := Option.isSome_iff_exists.1 hsome
    have hef : effect J p.1 (.coasters p.2) = some e := by simp [effect, hP, hcr]
    have hId := effect_Id J p.1 (.coasters p.2) e hef
    have htail := ih (fun q hq => hall q (List.mem_cons_of_mem _ hq))
    simp only [List.map_cons, List.filterMap_cons, hef, Option.map_some', hId]
    rw [htail]

/-- C3, counterexample: from the empty store, two POSTs that are both answered
200 and generate the same id are followed by a GET of the collection that is
answered with the encoding of a list of one element, not two; the map holds
one entry after the two POSTs. -/
theorem list_after_colliding_creates :
    responses sampleJson ⟨"secret"⟩ newCoasterHandlers
        [(⟨7, []⟩, .coasters furyPost), (⟨7, []⟩, .coasters kingdaPost),
          (⟨0, []⟩, .coasters (getRequest "/coasters"))]
      = [⟨[], some 200, [], "successfully created the coaster"⟩,
         ⟨[], some 200, [], "successfully created the coaster"⟩,
         ⟨[("content-type", "application/json")], some 200,
           [("content-type", "application/json")],
           "[" ++ sampleMarshal ⟨"Kingda Ka", "7", "Intamin", "Six Flags"⟩ ++ "]"⟩] ∧
    sampleJson.marshalSlice [⟨"Kingda Ka", "7", "Intamin", "Six Flags"⟩]
      = .ok ("[" ++ sampleMarshal ⟨"Kingda Ka", "7", "Intamin", "Six Flags"⟩ ++ "]") ∧
    (run sampleJson ⟨"secret"⟩ newCoasterHandlers
        [(⟨7, []⟩, .coasters furyPost), (⟨7, []⟩, .coasters kingdaPost)]).map
      (fun p => len p.1.store) = some 1 := by
  refine ⟨by decide, by rfl, by decide⟩

/-- C3, amended: from the empty store, after any sequence of N POSTs on the
collection endpoint that were each answered 200, a GET of the collection is
answered 200 with the JSON encoding of a list that has exactly one element for
each different id generated: the ids of its elements are, in some order, the
different generated ids, each once (so the list has exactly N elements when
the N ids are pairwise different).  Each element is one of the entities the
POSTs created, namely the one created by the last POST that generated its
id. -/
theorem list_after_creates (J : Json) (hJ : J.MarshalTotal) (a : adminPortal)
    (ps : List (Env × Request)) (envG : Env) (rG : Request)
    (hP : ∀ p ∈ ps, p.2.Method = "POST") (hG : rG.Method = "GET")
    (h200 : ∀ w ∈ responses J a newCoasterHandlers (ps.map fun p => (p.1, Call.coasters p.2)),
      w.status = some 200) :
    ∃ h ws, run J a newCoasterHandlers (ps.map fun p => (p.1, Call.coasters p.2)) = some (h, ws) ∧
      ∃ c L, serve J a h envG (.coasters rG) = .ok c ∧ c.w.status = some 200 ∧
        J.marshalSlice L = .ok c.w.body ∧
        (L.map fun x => x.Id).Perm ((ps.map fun p => Itoa (p.1.rand % 10000)).dedup) ∧
        L.length = ((ps.map fun p => Itoa (p.1.rand % 10000)).dedup).length ∧
        ((ps.map fun p => Itoa (p.1.rand % 10000)).Nodup → L.length = ps.length) ∧
        ∀ x ∈ L, ∃ pre p post, ps = pre ++ p :: post ∧
          (∀ q ∈ post, Itoa (q.1.rand % 10000) ≠ Itoa (p.1.rand % 10000)) ∧
          ∃ b e, p.2.Body = .ok b ∧ J.unmarshal b = .ok e ∧
            x = ⟨e.Name, Itoa (p.1.rand % 10000), e.Manufacturer, e.InPark⟩ := by
  obtain ⟨ws, hrun, _, hall⟩ := run_returns J a (ps.map fun p => (p.1, Call.coasters p.2)) ∅
  have hresp : responses J a newCoasterHandlers (ps.map fun p => (p.1, Call.coasters p.2))
      = ws := by
    simp only [responses, newCoasterHandlers]
    rw [hrun]
  rw [hresp] at h200
  have hcreated : ∀ p ∈ ps, p.2.Method = "POST" ∧ (created J p.1 p.2).isSome := by
    intro p hp
    obtain ⟨w, hw, hiff⟩ := hall (p.1, Call.coasters p.2) (List.mem_map.2 ⟨p, hp, rfl⟩)
    exact ⟨hP p hp, (hiff p.2 rfl (hP p hp)).1 (h200 w hw)⟩
  have hkeys := filterMap_effect_creates J ps hcreated
  refine ⟨_, ws, hrun, ?_⟩
  obtain ⟨c, hc, _, hok, _⟩ := get_returns J envG
    ((ps.map fun p => (p.1, Call.coasters p.2)).foldl (nextStore J) ∅)
  obtain ⟨b, hb⟩ := hJ.2 ((rangeStore envG
    ((ps.map fun p => (p.1, Call.coasters p.2)).foldl (nextStore J) ∅)).map fun kv => kv.2)
  have hw := hok b hb
  -- the keys of the final map are the different generated ids
  have hkperm : (AList.keys ((ps.map fun p => (p.1, Call.coasters p.2)).foldl (nextStore J) ∅)).Perm
      ((ps.map fun p => Itoa (p.1.rand % 10000)).dedup) := by
    rw [List.perm_ext_iff_of_nodup (AList.keys_nodup _) (List.nodup_dedup _)]
    intro k
    rw [← AList.mem_keys, foldl_nextStore_mem, hkeys, List.mem_dedup]
    simp
  -- every visited entry carries its key as id
  have hentry : ∀ kv ∈ rangeStore envG
      ((ps.map fun p => (p.1, Call.coasters p.2)).foldl (nextStore J) ∅),
      ((ps.map fun p => (p.1, Call.coasters p.2)).foldl (nextStore J) ∅).lookup kv.1
        = some kv.2 := by
    intro kv hkv
    have hkv2 := (rangeStore_perm envG _).subset hkv
    obtain ⟨en, hen, rfl⟩ := List.mem_map.1 hkv2
    exact Option.mem_def.1 (AList.mem_lookup_iff.2 hen)
  have hids : ((rangeStore envG
      ((ps.map fun p => (p.1, Call.coasters p.2)).foldl (nextStore J) ∅)).map
        fun kv => kv.2).map (fun x => x.Id)
      = (rangeStore envG
          ((ps.map fun p => (p.1, Call.coasters p.2)).foldl (nextStore J) ∅)).map
            fun kv => kv.1 := by
    rw [List.map_map]
    apply List.map_congr_left
    intro kv hkv
    rcases foldl_nextStore_lookup J _ ∅ kv.1 kv.2 (hentry kv hkv) with h0 | ⟨_, _, _, hid⟩
    · simp at h0
    · exact hid
  have hperm : (((rangeStore envG
      ((ps.map fun p => (p.1, Call.coasters p.2)).foldl (nextStore J) ∅)).map
        fun kv => kv.2).map fun x => x.Id).Perm
      ((ps.map fun p => Itoa (p.1.rand % 10000)).dedup) := by
    rw [hids]
    exact (rangeStore_keys_perm envG _).trans hkperm
  have hlen : ((rangeStore envG
      ((ps.map fun p => (p.1, Call.coasters p.2)).foldl (nextStore J) ∅)).map
        fun kv => kv.2).length
      = ((ps.map fun p => Itoa (p.1.rand % 10000)).dedup).length := by
    simpa using hperm.length_eq
  refine ⟨c, _, by simp [serve, coasters, hG, hc], by rw [hw], by rw [hw]; exact hb, hperm,
    hlen, ?_, ?_⟩
  · intro hnd
    rw [hlen, hnd.dedup, List.length_map]
  · intro x hx
    obtain ⟨kv, hkv, rfl⟩ := List.mem_map.1 hx
    rcases foldl_nextStore_lookup_last J _ ∅ kv.1 kv.2 (hentry kv hkv) with
      ⟨h0, _⟩ | ⟨pre, ec, post, hcs, hef, hid, hpost⟩
    · simp at h0
    · obtain ⟨pre2, rest2, hps, _, hrest⟩ := List.map_eq_append_iff.1 hcs
      obtain ⟨p, post2, hrest2, hp, hpost2⟩ := List.map_eq_cons_iff.1 hrest
      subst hp
      obtain ⟨r, hcall, _, hcr⟩ := effect_some J p.1 (.coasters p.2) kv.2 hef
      cases hcall
      obtain ⟨_, b0, e0, hB, hU, he⟩ := created_some J p.1 p.2 kv.2 hcr
      have hkid : kv.1 = Itoa (p.1.rand % 10000) := by rw [← hid, he]
      refine ⟨pre2, p, post2, by rw [hps, hrest2], ?_, b0, e0, hB, hU, he⟩
      intro q hq
      have hqps : q ∈ ps := by rw [hps, hrest2]; simp [hq]
      obtain ⟨hqP, hqsome⟩ := hcreated q hqps
      obtain ⟨e2, hcr2⟩ := Option.isSome_iff_exists.1 hqsome
      have hef2 : effect J q.1 (.coasters q.2) = some e2 := by simp [effect, hqP, hcr2]
      have hne := hpost (q.1, .coasters q.2) (by rw [← hpost2]; exact List.mem_map.2 ⟨q, hq, rfl⟩)
        e2 hef2
      rw [effect_Id J q.1 (.coasters q.2) e2 hef2, hkid] at hne
      exact hne

theorem list_after_creates_witness :
    ∃ h ws, run sampleJson ⟨"secret"⟩ newCoasterHandlers
        ([((⟨7, []⟩ : Env), furyPost), (⟨10008, []⟩, kingdaPost), (⟨7, []⟩, kingdaPost)].map
          fun p => (p.1, Call.coasters p.2)) = some (h, ws) ∧
      ∃ c L, serve sampleJson ⟨"secret"⟩ h ⟨0, [1]⟩ (.coasters (getRequest "/coasters")) = .ok c ∧
        c.w.status = some 200 ∧
        sampleJson.marshalSlice L = .ok c.w.body ∧
        (L.map fun x => x.Id).Perm
          (([((⟨7, []⟩ : Env), furyPost), (⟨10008, []⟩, kingdaPost), (⟨7, []⟩, kingdaPost)].map
            fun p => Itoa (p.1.rand % 10000)).dedup) ∧
        L.length =
          (([((⟨7, []⟩ : Env), furyPost), (⟨10008, []⟩, kingdaPost), (⟨7, []⟩, kingdaPost)].map
            fun p => Itoa (p.1.rand % 10000)).dedup).length ∧
        (([((⟨7, []⟩ : Env), furyPost), (⟨10008, []⟩, kingdaPost), (⟨7, []⟩, kingdaPost)].map
          fun p => Itoa (p.1.rand % 10000)).Nodup → L.length = 3) ∧
        ∀ x ∈ L, ∃ pre p post,
          [((⟨7, []⟩ : Env), furyPost), (⟨10008, []⟩, kingdaPost), (⟨7, []⟩, kingdaPost)]
            = pre ++ p :: post ∧
          (∀ q ∈ post, Itoa (q.1.rand % 10000) ≠ Itoa (p.1.rand % 10000)) ∧
          ∃ b e, p.2.Body = .ok b ∧ sampleJson.unmarshal b = .ok e ∧
            x = ⟨e.Name, Itoa (p.1.rand % 10000), e.Manufacturer, e.InPark⟩ :=
  list_after_creates sampleJson sampleJson_marshalTotal ⟨"secret"⟩
    [(⟨7, []⟩, furyPost), (⟨10008, []⟩, kingdaPost), (⟨7, []⟩, kingdaPost)] ⟨0, [1]⟩
    (getRequest "/coasters") (by decide) rfl (by decide)

/-! ## The locking discipline -/

/-- On every store, `get` reads the size of the map with the mutex free and
visits the map with the mutex held; it encodes and responds with the mutex free. -/
theorem get_lock_record (J : Json) (env : Env) (s : Store) :
    accessesUnderLock (get J env (Ctx.start ⟨false, s⟩)).tr = false ∧
    lockFreeOutside (get J env (Ctx.start ⟨false, s⟩)).tr = true ∧
    (get J env (Ctx.start ⟨false, s⟩)).tr.filter (fun p => p.1.isStoreAccess)
      = [(.storeLen, false), (.storeRange, true)] := by
  cases hb : J.marshalSlice ((rangeStore env s).map fun kv => kv.2) <;>
  simp [get, getLocked, Ctx.start, Ctx.Lock, Ctx.log, rangeAssign_values, hb, Ctx.Unlock,
    Ctx.HeaderAdd, Ctx.WriteHeader, Ctx.Write, Result.tr, accessesUnderLock, lockFreeOutside,
    Ev.isStoreAccess, Ev.isOutsideWork]

/-- On every store, `randomHandler` reads the size of the map with the mutex
free, visits the map with the mutex held, and responds with the mutex held. -/
theorem randomHandler_lock_record (env : Env) (s : Store) :
    accessesUnderLock (randomHandler env (Ctx.start ⟨false, s⟩)).tr = false ∧
    lockFreeOutside (randomHandler env (Ctx.start ⟨false, s⟩)).tr = false ∧
    (randomHandler env (Ctx.start ⟨false, s⟩)).tr.filter (fun p => p.1.isStoreAccess)
      = [(.storeLen, false), (.storeRange, true)] := by
  have hlen : ((rangeStore env s).map fun kv => kv.1).length = len s := by
    simp [rangeStore_length]
  simp only [randomHandler, randomLocked, Ctx.start, Ctx.Lock, Ctx.log, Bool.false_eq_true,
    ↓reduceIte, rangeAssign_keys, hlen]
  by_cases h0 : len s = 0
  · simp [h0, Ctx.Unlock, Ctx.WriteHeader, Ctx.Write, Ctx.log, Result.tr, accessesUnderLock,
      lockFreeOutside, Ev.isStoreAccess, Ev.isOutsideWork]
  · by_cases h1 : len s = 1 <;>
    simp [h0, h1, Ctx.Unlock, Ctx.WriteHeader, Ctx.HeaderAdd, Ctx.log, Result.tr,
      accessesUnderLock, lockFreeOutside, Ev.isStoreAccess, Ev.isOutsideWork]

/-- On every store, `post` writes the map with the mutex held; it responds
with the mutex held exactly when it answers 200. -/
theorem post_lock_record (J : Json) (env : Env) (r : Request) (s : Store) :
    accessesUnderLock (post J env r (Ctx.start ⟨false, s⟩)).tr = true ∧
    lockFreeOutside (post J env r (Ctx.start ⟨false, s⟩)).tr
      = !((post J env r (Ctx.start ⟨false, s⟩)).status == some 200) := by
  unfold post
  cases hB : r.Body with
  | error err =>
    simp [Ctx.start, Ctx.log, Ctx.WriteHeader, Ctx.Write, ResponseWriter.new,
      ResponseWriter.WriteHeader, ResponseWriter.Write, StatusInternalServerError, Result.tr,
      Result.status, accessesUnderLock, lockFreeOutside, Ev.isStoreAccess, Ev.isOutsideWork]
  | ok bodyBytes =>
    cases hU : J.unmarshal bodyBytes with
    | error err =>
      simp [hU, Ctx.start, Ctx.log, Ctx.WriteHeader, Ctx.Write, ResponseWriter.new,
        ResponseWriter.WriteHeader, ResponseWriter.Write, StatusBadRequest, Result.tr,
        Result.status, accessesUnderLock, lockFreeOutside, Ev.isStoreAccess, Ev.isOutsideWork]
    | ok e =>
      by_cases hct : r.contentType = "application/json"
      · simp [hU, hct, Ctx.start, Ctx.Lock, Ctx.log, Ctx.Unlock, Ctx.assign, Ctx.WriteHeader,
          Ctx.Write, ResponseWriter.new, ResponseWriter.WriteHeader, ResponseWriter.Write,
          StatusOK, Result.tr, Result.status, accessesUnderLock, lockFreeOutside,
          Ev.isStoreAccess, Ev.isOutsideWork]
      · simp [hU, hct, Ctx.start, Ctx.log, Ctx.WriteHeader, Ctx.Write, ResponseWriter.new,
          ResponseWriter.WriteHeader, ResponseWriter.Write, StatusUnsupportedMediaType,
          Result.tr, Result.status, accessesUnderLock, lockFreeOutside, Ev.isStoreAccess,
          Ev.isOutsideWork]

/-- On every store, a fetch by id reads the map with the mutex held and
encodes and responds with the mutex free. -/
theorem getCoaster_lock_record (J : Json) (env : Env) (r : Request) (s : Store)
    (hr : (Split r.URL).getD 2 "" ≠ "random") :
    accessesUnderLock (getCoaster J env r (Ctx.start ⟨false, s⟩)).tr = true ∧
    lockFreeOutside (getCoaster J env r (Ctx.start ⟨false, s⟩)).tr = true := by
  unfold getCoaster
  by_cases hpath : (Split r.URL).length = 3
  · simp only [hpath, ne_eq, not_true_eq_false, ↓reduceIte, hr]
    cases hl : s.lookup ((Split r.URL).getD 2 "") with
    | none =>
      simp [hl, Ctx.start, Ctx.Lock, Ctx.Unlock, Ctx.log, Ctx.WriteHeader, Ctx.Write, Result.tr,
        accessesUnderLock, lockFreeOutside, Ev.isStoreAccess, Ev.isOutsideWork]
    | some e =>
      cases hm : J.marshal e <;>
      simp [hl, hm, Ctx.start, Ctx.Lock, Ctx.Unlock, Ctx.log, Ctx.WriteHeader, Ctx.Write,
        Ctx.HeaderAdd, Result.tr, accessesUnderLock, lockFreeOutside, Ev.isStoreAccess,
        Ev.isOutsideWork]
  · simp [hpath, Ctx.start, Ctx.log, Ctx.WriteHeader, Ctx.Write, Result.tr, accessesUnderLock,
      lockFreeOutside, Ev.isStoreAccess, Ev.isOutsideWork]


/-- A `get` that is overtaken, between its line 48 and its line 50, by a create
that adds a key panics in its loop, and the mutex stays held. -/
theorem get_overtaken_panics (J : Json) (env envP : Env) (r : Request) (s : Store)
    (e : Coaster) (hcr : created J envP r = some e) (hfresh : e.Id ∉ s) :
    ∃ c, getOvertaken J env ⟨false, s⟩ (post J envP r) = .panic c ∧
      c.h = ⟨true, s.insert e.Id e⟩ := by
  obtain ⟨c2, hc2, hspec⟩ := post_returns J envP r s
  rw [hcr] at hspec
  have hshort : rangeAssign (List.replicate (len s) Coaster.zero) 0
      ((rangeStore env (s.insert e.Id e)).map fun kv => kv.2) = none := by
    apply rangeAssign_short
    rw [List.length_map, rangeStore_length, len_insert, if_neg hfresh]
    exact Nat.lt_succ_self _
  have hh : c2.h = ⟨false, s.insert e.Id e⟩ := hspec.1
  simp only [getOvertaken, hc2]
  simp [hh, getLocked, Ctx.start, Ctx.Lock, Ctx.log, hshort]

theorem get_overtaken_panics_witness :
    ∃ c, getOvertaken sampleJson ⟨0, []⟩ ⟨false, ∅⟩ (post sampleJson ⟨17, []⟩ furyPost) = .panic c ∧
      c.h = ⟨true, (∅ : Store).insert "17" ⟨"Fury", "17", "B&M", "Carowinds"⟩⟩ :=
  get_overtaken_panics sampleJson ⟨0, []⟩ ⟨17, []⟩ furyPost ∅ ⟨"Fury", "17", "B&M", "Carowinds"⟩
    (by rfl) (by simp)

/-- C9, the code at the failing input.  Served alone on the empty store, `get`
reads the size of the map with the mutex free, and `randomHandler` and `post`
write their response with the mutex held.  When a create is served between
line 48 and line 50 of a `get` on the empty store, the `get` panics with the
mutex held, and the next request that needs the mutex blocks. -/
theorem get_size_read_races_with_create :
    (get sampleJson ⟨0, []⟩ (Ctx.start newCoasterHandlers)).tr
      = [(.storeLen, false), (.lock, false), (.storeRange, true), (.unlock, true),
          (.marshal, false), (.respond, false), (.respond, false), (.respond, false)] ∧
    accessesUnderLock (get sampleJson ⟨0, []⟩ (Ctx.start newCoasterHandlers)).tr = false ∧
    (randomHandler ⟨0, []⟩ (Ctx.start newCoasterHandlers)).tr
      = [(.storeLen, false), (.lock, false), (.storeRange, true), (.respond, true),
          (.respond, true), (.unlock, true)] ∧
    accessesUnderLock (randomHandler ⟨0, []⟩ (Ctx.start newCoasterHandlers)).tr = false ∧
    lockFreeOutside (randomHandler ⟨0, []⟩ (Ctx.start newCoasterHandlers)).tr = false ∧
    (post sampleJson ⟨17, []⟩ furyPost (Ctx.start newCoasterHandlers)).tr
      = [(.random, false), (.lock, false), (.storeAssign, true), (.respond, true),
          (.respond, true), (.unlock, true)] ∧
    lockFreeOutside (post sampleJson ⟨17, []⟩ furyPost (Ctx.start newCoasterHandlers)).tr
      = false ∧
    ∃ c, getOvertaken sampleJson ⟨0, []⟩ newCoasterHandlers (post sampleJson ⟨17, []⟩ furyPost)
        = .panic c ∧
      c.h.mu = true ∧ c.h.store.keys = ["17"] ∧
      ∃ c2, serve sampleJson ⟨"secret"⟩ c.h ⟨0, []⟩ (.getCoaster (getRequest "/coasters/17"))
        = .blocked c2 := by
  refine ⟨by decide, by decide, by decide, by decide, by decide, by decide, by decide,
    _, rfl, rfl, rfl, _, rfl⟩

end Coasters
